import Mathlib

/-!
Availability & Scheduling Engine — verification of `app/services.py`.

Shallow embedding of the barbershop scheduling core (`src/app/models.py`,
`src/app/services.py`).

Modelling conventions:
* All instants (`datetime` values) are whole minutes since a fixed epoch,
  as `Nat`.  Working-hours `time` values are minutes within a day
  (`hour*60 + minute`).  The code only ever manipulates whole minutes
  (working hours are `time(h, m)`, durations are integer minutes, the slot
  grid steps by 30 minutes), so `replace(second=0, microsecond=0)` is the
  identity in this model.
* The async database session is modelled by an explicit `DB` record holding
  the table contents; each query becomes a pure function of the `DB`.
* SQLAlchemy's `scalar_one_or_none` returns the unique matching row or
  `None`, and raises `MultipleResultsFound` when more than one row matches;
  it is modelled as `Except Unit (Option α)` with `.error ()` for the raise.
* `datetime.utcnow()` is called by `get_available_slots` inside its slot
  loop (line 260), once per candidate slot whose occupied points are free
  (Python's `and` short-circuits).  The wall clock is modelled as a function
  `clock : Nat → Nat` from the sample index (how many times `utcnow` has
  been called in this invocation) to the sampled instant; a real clock is
  monotone in the index.
-/

/-- The `AppointmentStatus` enum from `app/models.py`. -/
inductive AppointmentStatus where
  | scheduled
  | confirmed
  | completed
  | cancelled
  | no_show
deriving DecidableEq, Repr

/-- A `Barber` row (`app/models.py`).  `work_start`/`work_end` are minutes
within a day (Python `time(h, m)` becomes `h*60 + m`; the defaults are
`time(9,0) = 540` and `time(19,0) = 1140`).  Fields not used by the
scheduling engine (phone, specialty, created_at) are omitted. -/
structure Barber where
  id : Nat
  name : String
  work_start : Nat
  work_end : Nat
  is_active : Bool
deriving DecidableEq, Repr

/-- A `Service` row (`app/models.py`).  `price` and `created_at` are not
consulted by the scheduling engine and are omitted. -/
structure Service where
  id : Nat
  name : String
  duration_minutes : Nat
  is_active : Bool
deriving DecidableEq, Repr

/-- An `Appointment` row (`app/models.py`).  `scheduled_at` is an instant in
minutes.  The audit timestamps are omitted. -/
structure Appointment where
  id : Nat
  customer_id : Nat
  barber_id : Nat
  service_id : Nat
  scheduled_at : Nat
  status : AppointmentStatus
  notes : Option String
deriving DecidableEq, Repr

/-- The database tables the scheduling engine reads and writes. -/
structure DB where
  barbers : List Barber
  services : List Service
  appointments : List Appointment
deriving DecidableEq, Repr

deriving instance DecidableEq for Except

/-- SQLAlchemy `result.scalar_one_or_none()`: `None` for no row, the row if
unique, and `MultipleResultsFound` (modelled as `.error ()`) otherwise. -/
def scalar_one_or_none {α : Type} : List α → Except Unit (Option α)
  | [] => .ok none
  | [x] => .ok (some x)
  | _ :: _ :: _ => .error ()

namespace BarberService

/-- Embeds `BarberService.get_by_id` (services.py:20-24): `select(Barber).where
(Barber.id == barber_id)` then `scalar_one_or_none`.  Note: no `is_active`
filter. -/
def get_by_id (db : DB) (barber_id : Nat) : Except Unit (Option Barber) :=
  scalar_one_or_none (db.barbers.filter (fun b => b.id == barber_id))

end BarberService

namespace ServiceService

/-- Embeds `ServiceService.get_by_id` (services.py:50-54). -/
def get_by_id (db : DB) (service_id : Nat) : Except Unit (Option Service) :=
  scalar_one_or_none (db.services.filter (fun s => s.id == service_id))

end ServiceService

/-- The status filter `Appointment.status.in_([SCHEDULED, CONFIRMED])`. -/
def statusIsActive (s : AppointmentStatus) : Bool :=
  s == .scheduled || s == .confirmed

/-- Python `date.replace(hour=0, minute=0, second=0, microsecond=0)`: midnight of
the day containing instant `t` (1440 minutes per day). -/
def floorDay (t : Nat) : Nat := t - t % 1440

/-- Python `date.replace(hour=h, minute=m, second=0, microsecond=0)` where `hm` is
the wall-clock time `h*60 + m` in minutes within the day. -/
def replaceHM (t : Nat) (hm : Nat) : Nat := floorDay t + hm

/-- Insertion of an appointment into a list sorted by `scheduled_at`
(helper for the SQL `ORDER BY Appointment.scheduled_at`). -/
def insertByScheduledAt (a : Appointment) : List Appointment → List Appointment
  | [] => [a]
  | b :: bs =>
    if a.scheduled_at ≤ b.scheduled_at then a :: b :: bs
    else b :: insertByScheduledAt a bs

/-- The SQL `ORDER BY Appointment.scheduled_at` (ascending), as insertion sort. -/
def sortByScheduledAt : List Appointment → List Appointment
  | [] => []
  | a :: as => insertByScheduledAt a (sortByScheduledAt as)

namespace AppointmentService

/-- Embeds `AppointmentService.get_barber_appointments` (services.py:172-191):
active appointments of the barber whose `scheduled_at` lies in
`[start_of_day, start_of_day + 1 day)`, ordered by `scheduled_at`. -/
def get_barber_appointments (db : DB) (barber_id : Nat) (date : Nat) :
    List Appointment :=
  let start_of_day := floorDay date
  let end_of_day := start_of_day + 1440
  sortByScheduledAt (db.appointments.filter (fun a =>
    a.barber_id == barber_id &&
    (decide (start_of_day ≤ a.scheduled_at) &&
     decide (a.scheduled_at < end_of_day)) &&
    statusIsActive a.status))

/-- The WHERE clause of `check_availability`'s query (services.py:200-215):
an active appointment of the barber satisfying
`(scheduled_at <= s AND scheduled_at + 30 > s) OR
 (scheduled_at < s + d AND scheduled_at >= s)`. -/
def conflictQuery (barber_id : Nat) (scheduled_at : Nat)
    (duration_minutes : Nat) (a : Appointment) : Bool :=
  let end_time := scheduled_at + duration_minutes
  a.barber_id == barber_id &&
  statusIsActive a.status &&
  ((decide (a.scheduled_at ≤ scheduled_at) &&
    decide (a.scheduled_at + 30 > scheduled_at)) ||
   (decide (a.scheduled_at < end_time) &&
    decide (a.scheduled_at ≥ scheduled_at)))

/-- Embeds `AppointmentService.check_availability` (services.py:193-218):
`scalar_one_or_none` over the rows matching `conflictQuery` (raising when
two or more such rows exist), then `existing is None`. -/
def check_availability (db : DB) (barber_id : Nat) (scheduled_at : Nat)
    (duration_minutes : Nat) : Except Unit Bool :=
  match scalar_one_or_none (db.appointments.filter
      (conflictQuery barber_id scheduled_at duration_minutes)) with
  | .error e => .error e
  | .ok existing => .ok existing.isNone

/-- The ORM relationship `apt.service`, resolving the appointment's
`service_id` against the services table. -/
def aptService (db : DB) (a : Appointment) : Option Service :=
  db.services.find? (fun s => s.id == a.service_id)

/-- The expression `apt.service.duration_minutes if apt.service else 30`
(services.py:235). -/
def aptDuration (db : DB) (a : Appointment) : Nat :=
  match aptService db a with
  | some s => s.duration_minutes
  | none => 30

/-- The inner `while current < apt.scheduled_at + timedelta(minutes=
apt_duration)` loop of services.py:236-239: collects `current, current+30,
…` while strictly below `stop`.  (`current.replace(second=0, microsecond=0)`
is the identity on whole minutes.) -/
def blockLoop (stop : Nat) (current : Nat) : List Nat :=
  if current < stop then current :: blockLoop stop (current + 30)
  else []
termination_by stop - current
decreasing_by omega

/-- The set `blocked_times` (services.py:231-239): union over the day's active
appointments of their occupied grid points.  The Python `set` is modelled
as a list queried by membership. -/
def blockedTimes (db : DB) (apts : List Appointment) : List Nat :=
  apts.foldl (fun acc apt =>
    acc ++ blockLoop (apt.scheduled_at + aptDuration db apt) apt.scheduled_at)
    []

/-- The inner `while check_time < current_slot + service_duration` loop of
services.py:253-258: `true` iff no 30-minute point of the candidate span is
in `blocked`. -/
def checkLoop (blocked : List Nat) (stop : Nat) (check_time : Nat) : Bool :=
  if check_time < stop then
    if blocked.contains check_time then false
    else checkLoop blocked stop (check_time + 30)
  else true
termination_by stop - check_time
decreasing_by omega

/-- The `while current_slot + timedelta(minutes=service_duration) <=
end_of_day` loop of services.py:249-263.  `clock k` is the value of the
`k`-th `datetime.utcnow()` call of this invocation; `utcnow` is evaluated
only when `is_available` is true (Python `and` short-circuits), so the
sample index advances exactly on those iterations. -/
def slotLoop (blocked : List Nat) (end_of_day service_duration : Nat)
    (clock : Nat → Nat) (k : Nat) (current_slot : Nat) : List Nat :=
  if current_slot + service_duration ≤ end_of_day then
    if checkLoop blocked (current_slot + service_duration) current_slot then
      if clock k < current_slot then
        current_slot ::
          slotLoop blocked end_of_day service_duration clock (k + 1)
            (current_slot + 30)
      else
        slotLoop blocked end_of_day service_duration clock (k + 1)
          (current_slot + 30)
    else
      slotLoop blocked end_of_day service_duration clock k (current_slot + 30)
  else []
termination_by end_of_day + 1 - current_slot
decreasing_by all_goals omega

/-- Embeds `AppointmentService.get_available_slots` (services.py:220-265). -/
def get_available_slots (db : DB) (clock : Nat → Nat) (barber_id : Nat)
    (date : Nat) (service_duration : Nat := 30) :
    Except Unit (List Nat) :=
  match BarberService.get_by_id db barber_id with
  | .error e => .error e
  | .ok none => .ok []
  | .ok (some barber) =>
    let existing_appointments := get_barber_appointments db barber_id date
    let blocked_times := blockedTimes db existing_appointments
    let start_of_day := replaceHM date barber.work_start
    let end_of_day := replaceHM date barber.work_end
    .ok (slotLoop blocked_times end_of_day service_duration clock 0
      start_of_day)

/-- Embeds `AppointmentService.create` (services.py:114-132): unconditionally
persists a new appointment with the model defaults (`status = SCHEDULED`);
the autoincremented primary key is modelled as the table length. -/
def create (db : DB) (customer_id barber_id service_id : Nat)
    (scheduled_at : Nat) (notes : Option String) : Appointment × DB :=
  let appointment : Appointment :=
    { id := db.appointments.length
      customer_id := customer_id
      barber_id := barber_id
      service_id := service_id
      scheduled_at := scheduled_at
      status := .scheduled
      notes := notes }
  (appointment, { db with appointments := db.appointments ++ [appointment] })

end AppointmentService

/-- Stated from the spec's words (§4.2), for comparison with the source's
`check_availability`: true iff no booking of the provider with status
`scheduled` or `confirmed` satisfies the half-open rule
`existingStart < candidateStart + candidateDuration AND
 existingStart + existingDuration > candidateStart`, where
`existingDuration` is the linked service's duration (default 30 when it
cannot be resolved). -/
def specIsAvailable (db : DB) (barber_id : Nat) (candidateStart : Nat)
    (candidateDuration : Nat) : Bool :=
  db.appointments.all (fun a =>
    !(a.barber_id == barber_id &&
      statusIsActive a.status &&
      (decide (a.scheduled_at < candidateStart + candidateDuration) &&
       decide (a.scheduled_at + AppointmentService.aptDuration db a >
         candidateStart))))

/-- Typed rejection of a booking request, naming the failed precondition
(spec §4.4 / §7). -/
inductive Rejection where
  | provider_unknown
  | service_unknown
  | slot_conflict
deriving DecidableEq, Repr

/-- Outcome of `book`: exactly one of a created `Appointment` or a typed
`Rejection`. -/
inductive BookResult where
  | booked : Appointment → BookResult
  | rejected : Rejection → BookResult
deriving DecidableEq, Repr

/-- Modelled from the spec: the provider lookup `getActiveProvider(id) →
Provider | absent` of §6 ("provider exists and is active").  The caller-side
resolution that performs the activity check before booking is not under
`src/`; only `BarberService.get_by_id`, which does not filter on activity,
is. -/
def getActiveProvider (db : DB) (id : Nat) : Option Barber :=
  db.barbers.find? (fun b => b.id == id && b.is_active)

/-- Modelled from the spec: the service lookup `getActiveService(id) →
Service | absent` of §6 ("service exists and is active"). -/
def getActiveService (db : DB) (id : Nat) : Option Service :=
  db.services.find? (fun s => s.id == id && s.is_active)

/-- Modelled from the spec: the Booking Orchestrator `book` of §4.4 is not
under `src/` — `AppointmentService.create` persists unconditionally and the
caller that performs the precondition checks is outside the staged files.
Following §4.4: check, in order, that the provider exists and is active,
that the service exists and is active, and that the availability check (the
repository's `check_availability`, any outcome other than `.ok true`
counting as unavailable) passes for the requested start and the service's
duration; on success persist through `AppointmentService.create`, otherwise
return the `Rejection` naming the first failed precondition, leaving the
store untouched. -/
def book (db : DB) (customer_id barber_id service_id : Nat)
    (scheduled_at : Nat) (notes : Option String) : BookResult × DB :=
  match getActiveProvider db barber_id with
  | none => (.rejected .provider_unknown, db)
  | some _ =>
    match getActiveService db service_id with
    | none => (.rejected .service_unknown, db)
    | some service =>
      match AppointmentService.check_availability db barber_id scheduled_at
          service.duration_minutes with
      | .ok available =>
        if available then
          let created := AppointmentService.create db customer_id barber_id
            service_id scheduled_at notes
          (.booked created.1, created.2)
        else (.rejected .slot_conflict, db)
      | .error _ => (.rejected .slot_conflict, db)

/-- Fixture: an active barber working 09:00–19:00 (540–1140) with one
scheduled appointment at 09:00 for the 30-minute service (claim C4's
boundary scenario, on day 0). -/
def dbBoundary : DB :=
  { barbers := [{ id := 1, name := "b", work_start := 540, work_end := 1140,
                  is_active := true }]
    services := [{ id := 1, name := "cut", duration_minutes := 30,
                   is_active := true }]
    appointments := [{ id := 1, customer_id := 1, barber_id := 1,
                       service_id := 1, scheduled_at := 540,
                       status := .scheduled, notes := none }] }

/-- Fixture: one scheduled appointment 10:00–10:30 (600, 30-minute
service), for the abutting-booking scenario (C5). -/
def dbAbut : DB :=
  { barbers := [{ id := 1, name := "b", work_start := 540, work_end := 1140,
                  is_active := true }]
    services := [{ id := 1, name := "cut", duration_minutes := 30,
                   is_active := true }]
    appointments := [{ id := 1, customer_id := 1, barber_id := 1,
                       service_id := 1, scheduled_at := 600,
                       status := .scheduled, notes := none }] }

/-- Fixture for C1's counterexample: one scheduled appointment at minute
1000 whose linked service lasts 60 minutes, so under the spec's half-open
rule it still occupies minute 1045. -/
def dbLong : DB :=
  { barbers := [{ id := 1, name := "b", work_start := 540, work_end := 1140,
                  is_active := true }]
    services := [{ id := 1, name := "combo", duration_minutes := 60,
                   is_active := true }]
    appointments := [{ id := 1, customer_id := 1, barber_id := 1,
                       service_id := 1, scheduled_at := 1000,
                       status := .scheduled, notes := none }] }

/-- Fixture for C3's counterexample: an inactive barber (working 09:00 to
10:00, no appointments) that `get_by_id` still resolves. -/
def dbInactive : DB :=
  { barbers := [{ id := 1, name := "b", work_start := 540, work_end := 600,
                  is_active := false }]
    services := []
    appointments := [] }

/-- Fixture for C8's counterexample: an active barber working 09:00–10:00
with no appointments (two candidate slots, 540 and 570). -/
def dbTwoSlots : DB :=
  { barbers := [{ id := 1, name := "b", work_start := 540, work_end := 600,
                  is_active := true }]
    services := []
    appointments := [] }

/-- Clock for C8's counterexample: the first `utcnow` sample is minute 0,
every later sample is minute 599 (time moved forward during the call). -/
def clockJump (k : Nat) : Nat := if k == 0 then 0 else 599

/-- Fixture for C9's counterexample: a barber whose working window is empty
(`work_end = work_start = 540`). -/
def dbZeroWindow : DB :=
  { barbers := [{ id := 1, name := "b", work_start := 540, work_end := 540,
                  is_active := true }]
    services := []
    appointments := [] }

/-- Fixture for C10's witness: one scheduled appointment on day 1 at
minute `1440 + 600` (10:00), plus one whose start lies on day 0 at minute
1410 (23:30) with a 60-minute service spilling past midnight. -/
def dbSpill : DB :=
  { barbers := [{ id := 1, name := "b", work_start := 540, work_end := 660,
                  is_active := true }]
    services := [{ id := 1, name := "combo", duration_minutes := 60,
                   is_active := true }]
    appointments := [{ id := 1, customer_id := 1, barber_id := 1,
                       service_id := 1, scheduled_at := 2040,
                       status := .scheduled, notes := none }] }

/-- The day-0 appointment (23:30, 60-minute service) that spills past
midnight into day 1, for C10's witness. -/
def spillApt : Appointment :=
  { id := 2, customer_id := 1, barber_id := 1, service_id := 1,
    scheduled_at := 1410, status := .scheduled, notes := none }

/-- Fuel-driven mirror of `AppointmentService.blockLoop`, structurally
recursive so that concrete runs reduce inside `decide`; proved equal to the
loop whenever the fuel covers the iteration count
(`blockLoop_eq_fuel`). -/
def blockLoopFuel : Nat → Nat → Nat → List Nat
  | 0, _, _ => []
  | n + 1, stop, current =>
    if current < stop then current :: blockLoopFuel n stop (current + 30)
    else []

/-- Fuel-driven mirror of `AppointmentService.checkLoop`
(see `checkLoop_eq_fuel`). -/
def checkLoopFuel : Nat → List Nat → Nat → Nat → Bool
  | 0, _, _, _ => true
  | m + 1, blocked, stop, check_time =>
    if check_time < stop then
      if blocked.contains check_time then false
      else checkLoopFuel m blocked stop (check_time + 30)
    else true

/-- Fuel-driven mirror of `AppointmentService.slotLoop`: `n` bounds the
outer iterations, `m` the inner `checkLoopFuel` iterations
(see `slotLoop_eq_fuel`). -/
def slotLoopFuel : Nat → Nat → List Nat → Nat → Nat → (Nat → Nat) → Nat →
    Nat → List Nat
  | 0, _, _, _, _, _, _, _ => []
  | n + 1, m, blocked, e, d, clock, k, c =>
    if c + d ≤ e then
      if checkLoopFuel m blocked (c + d) c then
        if clock k < c then
          c :: slotLoopFuel n m blocked e d clock (k + 1) (c + 30)
        else slotLoopFuel n m blocked e d clock (k + 1) (c + 30)
      else slotLoopFuel n m blocked e d clock k (c + 30)
    else []

/-! Helper lemmas about the embedded queries and loops. -/

theorem blockLoop_eq_fuel (n stop current : Nat)
    (h : stop ≤ current + 30 * n) :
    AppointmentService.blockLoop stop current = blockLoopFuel n stop current := by
  induction n generalizing current with
  | zero =>
    rw [AppointmentService.blockLoop, if_neg (by omega)]
    rfl
  | succ n ih =>
    rw [AppointmentService.blockLoop]
    show _ = if current < stop then
      current :: blockLoopFuel n stop (current + 30) else []
    by_cases hc : current < stop
    · rw [if_pos hc, if_pos hc, ih (current + 30) (by omega)]
    · rw [if_neg hc, if_neg hc]

theorem checkLoop_eq_fuel (m : Nat) (blocked : List Nat) (stop t : Nat)
    (h : stop ≤ t + 30 * m) :
    AppointmentService.checkLoop blocked stop t
      = checkLoopFuel m blocked stop t := by
  induction m generalizing t with
  | zero =>
    rw [AppointmentService.checkLoop, if_neg (by omega)]
    rfl
  | succ m ih =>
    rw [AppointmentService.checkLoop]
    show _ = if t < stop then
      (if blocked.contains t then false
       else checkLoopFuel m blocked stop (t + 30)) else true
    by_cases hc : t < stop
    · rw [if_pos hc, if_pos hc]
      by_cases hb : blocked.contains t
      · rw [if_pos hb, if_pos hb]
      · rw [if_neg hb, if_neg hb, ih (t + 30) (by omega)]
    · rw [if_neg hc, if_neg hc]

theorem slotLoop_eq_fuel (n m : Nat) (blocked : List Nat) (e d : Nat)
    (clock : Nat → Nat) (k c : Nat)
    (hn : e + 1 ≤ c + 30 * n) (hm : d ≤ 30 * m) :
    AppointmentService.slotLoop blocked e d clock k c
      = slotLoopFuel n m blocked e d clock k c := by
  induction n generalizing k c with
  | zero =>
    rw [AppointmentService.slotLoop, if_neg (by omega)]
    rfl
  | succ n ih =>
    rw [AppointmentService.slotLoop]
    show _ = if c + d ≤ e then
      (if checkLoopFuel m blocked (c + d) c then
        (if clock k < c then
          c :: slotLoopFuel n m blocked e d clock (k + 1) (c + 30)
        else slotLoopFuel n m blocked e d clock (k + 1) (c + 30))
      else slotLoopFuel n m blocked e d clock k (c + 30)) else []
    by_cases h1 : c + d ≤ e
    · rw [if_pos h1, if_pos h1,
        checkLoop_eq_fuel m blocked (c + d) c (by omega)]
      by_cases h2 : checkLoopFuel m blocked (c + d) c
      · rw [if_pos h2, if_pos h2]
        by_cases h3 : clock k < c
        · rw [if_pos h3, if_pos h3, ih (k + 1) (c + 30) (by omega)]
        · rw [if_neg h3, if_neg h3, ih (k + 1) (c + 30) (by omega)]
      · rw [if_neg h2, if_neg h2, ih k (c + 30) (by omega)]
    · rw [if_neg h1, if_neg h1]

theorem scalar_one_or_none_ok_none_iff {α : Type} (xs : List α) :
    scalar_one_or_none xs = .ok none ↔ xs = [] := by
  match xs with
  | [] => simp [scalar_one_or_none]
  | [x] => simp [scalar_one_or_none]
  | x :: y :: t => simp [scalar_one_or_none]

theorem mem_insertByScheduledAt (x a : Appointment) (l : List Appointment) :
    x ∈ insertByScheduledAt a l ↔ x = a ∨ x ∈ l := by
  induction l with
  | nil => simp [insertByScheduledAt]
  | cons b bs ih =>
    simp only [insertByScheduledAt]
    split
    · simp
    · simp [ih]
      tauto

theorem mem_sortByScheduledAt (x : Appointment) (l : List Appointment) :
    x ∈ sortByScheduledAt l ↔ x ∈ l := by
  induction l with
  | nil => simp [sortByScheduledAt]
  | cons a as ih => simp [sortByScheduledAt, mem_insertByScheduledAt, ih]

theorem mem_blockLoop (t stop cur : Nat) :
    t ∈ AppointmentService.blockLoop stop cur ↔
      ∃ k, t = cur + 30 * k ∧ t < stop := by
  induction cur using AppointmentService.blockLoop.induct stop with
  | case1 cur h ih =>
    rw [AppointmentService.blockLoop, if_pos h]
    simp only [List.mem_cons, ih]
    constructor
    · rintro (rfl | ⟨k, rfl, hk⟩)
      · exact ⟨0, by omega, h⟩
      · exact ⟨k + 1, by omega, hk⟩
    · rintro ⟨k, rfl, hk⟩
      match k with
      | 0 => left; omega
      | k + 1 => right; exact ⟨k, by omega, hk⟩
  | case2 cur h =>
    rw [AppointmentService.blockLoop, if_neg h]
    simp only [List.not_mem_nil, false_iff, not_exists, not_and]
    rintro k rfl
    omega

theorem mem_blockedTimes_foldl (db : DB) (apts : List Appointment)
    (acc : List Nat) (t : Nat) :
    t ∈ apts.foldl (fun acc apt =>
        acc ++ AppointmentService.blockLoop
          (apt.scheduled_at + AppointmentService.aptDuration db apt)
          apt.scheduled_at) acc ↔
      t ∈ acc ∨ ∃ a ∈ apts,
        t ∈ AppointmentService.blockLoop
          (a.scheduled_at + AppointmentService.aptDuration db a)
          a.scheduled_at := by
  induction apts generalizing acc with
  | nil => simp
  | cons a as ih =>
    simp only [List.foldl_cons, ih, List.mem_append, List.mem_cons]
    constructor
    · rintro (( h | h) | ⟨b, hb, h⟩)
      · exact .inl h
      · exact .inr ⟨a, .inl rfl, h⟩
      · exact .inr ⟨b, .inr hb, h⟩
    · rintro (h | ⟨b, rfl | hb, h⟩)
      · exact .inl (.inl h)
      · exact .inl (.inr h)
      · exact .inr ⟨b, hb, h⟩

theorem mem_blockedTimes (db : DB) (apts : List Appointment) (t : Nat) :
    t ∈ AppointmentService.blockedTimes db apts ↔
      ∃ a ∈ apts,
        t ∈ AppointmentService.blockLoop
          (a.scheduled_at + AppointmentService.aptDuration db a)
          a.scheduled_at := by
  unfold AppointmentService.blockedTimes
  rw [mem_blockedTimes_foldl]
  simp

theorem slotLoop_mem (blocked : List Nat) (e d : Nat) (clock : Nat → Nat)
    (k c s : Nat)
    (h : s ∈ AppointmentService.slotLoop blocked e d clock k c) :
    (∃ j, s = c + 30 * j) ∧ s + d ≤ e ∧
      AppointmentService.checkLoop blocked (s + d) s = true ∧
      ∃ i, k ≤ i ∧ clock i < s := by
  induction k, c using AppointmentService.slotLoop.induct blocked e d clock with
  | case1 k c hle hchk hnow ih =>
    rw [AppointmentService.slotLoop, if_pos hle, if_pos hchk, if_pos hnow] at h
    rcases List.mem_cons.mp h with rfl | h'
    · exact ⟨⟨0, by omega⟩, hle, hchk, k, le_refl k, hnow⟩
    · obtain ⟨⟨j, rfl⟩, h2, h3, i, hi, hlt⟩ := ih h'
      exact ⟨⟨j + 1, by omega⟩, h2, h3, i, by omega, hlt⟩
  | case2 k c hle hchk hnow ih =>
    rw [AppointmentService.slotLoop, if_pos hle, if_pos hchk, if_neg hnow] at h
    obtain ⟨⟨j, rfl⟩, h2, h3, i, hi, hlt⟩ := ih h
    exact ⟨⟨j + 1, by omega⟩, h2, h3, i, by omega, hlt⟩
  | case3 k c hle hchk ih =>
    rw [AppointmentService.slotLoop, if_pos hle, if_neg hchk] at h
    obtain ⟨⟨j, rfl⟩, h2, h3, i, hi, hlt⟩ := ih h
    exact ⟨⟨j + 1, by omega⟩, h2, h3, i, hi, hlt⟩
  | case4 k c hle =>
    rw [AppointmentService.slotLoop, if_neg hle] at h
    exact absurd h (List.not_mem_nil s)

theorem slotLoop_pairwise (blocked : List Nat) (e d : Nat) (clock : Nat → Nat)
    (k c : Nat) :
    (AppointmentService.slotLoop blocked e d clock k c).Pairwise (· < ·) := by
  induction k, c using AppointmentService.slotLoop.induct blocked e d clock with
  | case1 k c hle hchk hnow ih =>
    rw [AppointmentService.slotLoop, if_pos hle, if_pos hchk, if_pos hnow]
    refine List.Pairwise.cons (fun s hs => ?_) ih
    obtain ⟨⟨j, rfl⟩, -, -, -⟩ := slotLoop_mem _ _ _ _ _ _ _ hs
    omega
  | case2 k c hle hchk hnow ih =>
    rw [AppointmentService.slotLoop, if_pos hle, if_pos hchk, if_neg hnow]
    exact ih
  | case3 k c hle hchk ih =>
    rw [AppointmentService.slotLoop, if_pos hle, if_neg hchk]
    exact ih
  | case4 k c hle =>
    rw [AppointmentService.slotLoop, if_neg hle]
    exact List.Pairwise.nil

theorem slotLoop_clock_congr (blocked : List Nat) (e d : Nat)
    (cl1 cl2 : Nat → Nat) (k1 k2 c : Nat)
    (hcl1 : ∀ i, cl1 i < c) (hcl2 : ∀ i, cl2 i < c) :
    AppointmentService.slotLoop blocked e d cl1 k1 c =
      AppointmentService.slotLoop blocked e d cl2 k2 c := by
  revert hcl1 hcl2
  induction k1, c using AppointmentService.slotLoop.induct blocked e d cl1
    generalizing k2 with
  | case1 k c hle hchk hnow ih =>
    intro h1 h2
    rw [AppointmentService.slotLoop, if_pos hle, if_pos hchk, if_pos hnow]
    conv_rhs => rw [AppointmentService.slotLoop]
    rw [if_pos hle, if_pos hchk, if_pos (h2 k2)]
    exact congrArg (c :: ·)
      (ih (k2 + 1) (fun i => by have := h1 i; omega)
        (fun i => by have := h2 i; omega))
  | case2 k c hle hchk hnow ih =>
    intro h1 h2
    exact absurd (h1 k) hnow
  | case3 k c hle hchk ih =>
    intro h1 h2
    rw [AppointmentService.slotLoop, if_pos hle, if_neg hchk]
    conv_rhs => rw [AppointmentService.slotLoop]
    rw [if_pos hle, if_neg hchk]
    exact ih k2 (fun i => by have := h1 i; omega)
      (fun i => by have := h2 i; omega)
  | case4 k c hle =>
    intro h1 h2
    rw [AppointmentService.slotLoop, if_neg hle]
    conv_rhs => rw [AppointmentService.slotLoop]
    rw [if_neg hle]

theorem get_available_slots_of_found (db : DB) (clock : Nat → Nat)
    (bid date dur : Nat) (barber : Barber)
    (hb : BarberService.get_by_id db bid = .ok (some barber)) :
    AppointmentService.get_available_slots db clock bid date dur =
      .ok (AppointmentService.slotLoop
        (AppointmentService.blockedTimes db
          (AppointmentService.get_barber_appointments db bid date))
        (replaceHM date barber.work_end) dur clock 0
        (replaceHM date barber.work_start)) := by
  unfold AppointmentService.get_available_slots
  rw [hb]

theorem check_availability_ok_true_iff (db : DB) (bid c d : Nat) :
    AppointmentService.check_availability db bid c d = .ok true ↔
      ∀ a ∈ db.appointments, ¬AppointmentService.conflictQuery bid c d a = true := by
  unfold AppointmentService.check_availability
  cases hf : db.appointments.filter (AppointmentService.conflictQuery bid c d) with
  | nil =>
    simp only [scalar_one_or_none, Option.isNone_none, true_iff]
    exact List.filter_eq_nil_iff.mp hf
  | cons x xs =>
    have hx : x ∈ db.appointments ∧
        AppointmentService.conflictQuery bid c d x = true := by
      have hmem : x ∈ db.appointments.filter
          (AppointmentService.conflictQuery bid c d) := by
        rw [hf]; exact List.mem_cons_self x xs
      exact List.mem_filter.mp hmem
    cases xs with
    | nil =>
      simp only [scalar_one_or_none, Option.isNone_some]
      constructor
      · intro h
        exact absurd h (by simp)
      · intro hall
        exact absurd hx.2 (hall x hx.1)
    | cons y t =>
      simp only [scalar_one_or_none]
      constructor
      · intro h
        exact absurd h (by simp)
      · intro hall
        exact absurd hx.2 (hall x hx.1)

/-! Claims. -/

/-- C1 counterexample: `check_availability` does not implement the spec's
half-open rule.  In `dbLong` the single scheduled booking starts at minute
1000 with a 60-minute service, so under the half-open rule it still covers
the candidate span starting at 1045; the code nevertheless reports the
span available, because its query tests the existing booking against a
fixed 30-minute window rather than its service's duration. -/
theorem check_availability_not_half_open_rule :
    AppointmentService.check_availability dbLong 1 1045 30 = .ok true ∧
      specIsAvailable dbLong 1 1045 30 = false := by
  constructor
  · rfl
  · rfl

/-- C1 (amended): `check_availability` returns `.ok true` iff no booking of
the provider with status `scheduled` or `confirmed` satisfies the code's
conflict test — existing start within 30 minutes at or before the candidate
start, or existing start within the half-open candidate span; the existing
booking's own duration is never consulted. -/
theorem check_availability_iff_no_code_conflict (db : DB) (bid c d : Nat) :
    AppointmentService.check_availability db bid c d = .ok true ↔
      ∀ a ∈ db.appointments, a.barber_id = bid →
        statusIsActive a.status = true →
        ¬((a.scheduled_at ≤ c ∧ c < a.scheduled_at + 30) ∨
          (a.scheduled_at < c + d ∧ c ≤ a.scheduled_at)) := by
  rw [check_availability_ok_true_iff]
  constructor
  · intro hall a ha hbid hstat hconf
    apply hall a ha
    simp only [AppointmentService.conflictQuery, Bool.and_eq_true,
      Bool.or_eq_true, decide_eq_true_eq, beq_iff_eq]
    exact ⟨⟨hbid, hstat⟩, by omega⟩
  · intro hall a ha hq
    simp only [AppointmentService.conflictQuery, Bool.and_eq_true,
      Bool.or_eq_true, decide_eq_true_eq, beq_iff_eq] at hq
    obtain ⟨⟨hbid, hstat⟩, hdisj⟩ := hq
    exact hall a ha hbid hstat (by omega)

/-- C5: abutting spans do not conflict — with one active booking
10:00–10:30 (minute 600, 30-minute service), `check_availability` accepts
a candidate starting 10:30 (minute 630) with duration 30. -/
theorem check_availability_abutting :
    AppointmentService.check_availability dbAbut 1 630 30 = .ok true := rfl

/-- C2: `book` checks its preconditions in order and yields exactly one of
a created `Appointment` with status `scheduled` (persisted by appending to
the store) or a typed `Rejection` naming the first failed precondition,
leaving the store untouched on rejection. -/
theorem book_checks_in_order (db : DB) (cid bid sid t : Nat)
    (notes : Option String) :
    (∀ a db2, book db cid bid sid t notes = (.booked a, db2) →
       (∃ b, getActiveProvider db bid = some b) ∧
       (∃ s, getActiveService db sid = some s ∧
         AppointmentService.check_availability db bid t s.duration_minutes
           = .ok true) ∧
       a.status = .scheduled ∧ db2.appointments = db.appointments ++ [a]) ∧
    (∀ r db2, book db cid bid sid t notes = (.rejected r, db2) →
       db2 = db ∧
       (match r with
        | .provider_unknown => getActiveProvider db bid = none
        | .service_unknown => (∃ b, getActiveProvider db bid = some b) ∧
            getActiveService db sid = none
        | .slot_conflict => (∃ b, getActiveProvider db bid = some b) ∧
            ∃ s, getActiveService db sid = some s ∧
              AppointmentService.check_availability db bid t s.duration_minutes
                ≠ .ok true)) := by
  unfold book
  cases hp : getActiveProvider db bid with
  | none =>
    refine ⟨fun a db2 h => by simp at h, fun r db2 h => ?_⟩
    simp only [Prod.mk.injEq, BookResult.rejected.injEq] at h
    obtain ⟨rfl, rfl⟩ := h
    exact ⟨rfl, rfl⟩
  | some b =>
    cases hs : getActiveService db sid with
    | none =>
      refine ⟨fun a db2 h => by simp at h, fun r db2 h => ?_⟩
      simp only [Prod.mk.injEq, BookResult.rejected.injEq] at h
      obtain ⟨rfl, rfl⟩ := h
      exact ⟨rfl, ⟨b, rfl⟩, rfl⟩
    | some s =>
      refine ⟨fun a db2 h => ?_, fun r db2 h => ?_⟩
      · dsimp only at h
        cases hc : AppointmentService.check_availability db bid t
            s.duration_minutes with
        | ok v =>
          rw [hc] at h
          cases v with
          | true =>
            simp only [if_true, AppointmentService.create, Prod.mk.injEq,
              BookResult.booked.injEq] at h
            obtain ⟨rfl, rfl⟩ := h
            exact ⟨⟨b, rfl⟩, ⟨s, rfl, hc⟩, rfl, rfl⟩
          | false => simp at h
        | error e =>
          rw [hc] at h
          simp at h
      · dsimp only at h
        cases hc : AppointmentService.check_availability db bid t
            s.duration_minutes with
        | ok v =>
          rw [hc] at h
          cases v with
          | true => simp [AppointmentService.create] at h
          | false =>
            simp only [if_false, Bool.false_eq_true, Prod.mk.injEq,
              BookResult.rejected.injEq] at h
            obtain ⟨rfl, rfl⟩ := h
            exact ⟨rfl, ⟨b, rfl⟩, s, rfl, by simp [hc]⟩
        | error e =>
          rw [hc] at h
          simp only [Prod.mk.injEq, BookResult.rejected.injEq] at h
          obtain ⟨rfl, rfl⟩ := h
          exact ⟨rfl, ⟨b, rfl⟩, s, rfl, by simp [hc]⟩

/-- C2 witness: at the concrete store `dbAbut` the booked branch is taken
for a request at 10:30, so the preconditions are all satisfiable. -/
theorem book_checks_in_order_witness :
    (∃ b, getActiveProvider dbAbut 1 = some b) ∧
    (∃ s, getActiveService dbAbut 1 = some s ∧
      AppointmentService.check_availability dbAbut 1 630 s.duration_minutes
        = .ok true) := by
  obtain ⟨h1, h2, -, -⟩ :=
    (book_checks_in_order dbAbut 1 1 1 630 none).1 _ _ rfl
  exact ⟨h1, h2⟩

theorem filter_id_map_is_active (l : List Barber) (f : Barber → Bool)
    (bid : Nat) :
    (l.map (fun b => { b with is_active := f b })).filter
        (fun b => b.id == bid)
      = (l.filter (fun b => b.id == bid)).map
          (fun b => { b with is_active := f b }) := by
  induction l with
  | nil => simp
  | cons b bs ih =>
    simp only [List.map_cons, List.filter_cons]
    by_cases h : (b.id == bid) = true
    · simp [h, ih]
    · simp [h, ih]

/-- C3 counterexample: the inactive barber of `dbInactive` is resolved by
`get_by_id` (which never checks `is_active`), so `get_available_slots`
returns its two free slots instead of the empty sequence the claim
demands for an inactive provider. -/
theorem get_available_slots_inactive_not_empty :
    (∃ b ∈ dbInactive.barbers, b.id = 1 ∧ b.is_active = false) ∧
    AppointmentService.get_available_slots dbInactive (fun _ => 0) 1 0 30
      = .ok [540, 570] := by
  constructor
  · exact ⟨{ id := 1, name := "b", work_start := 540, work_end := 600,
             is_active := false }, by simp [dbInactive], rfl, rfl⟩
  · simp [AppointmentService.get_available_slots, BarberService.get_by_id,
      dbInactive, scalar_one_or_none,
      AppointmentService.get_barber_appointments,
      AppointmentService.blockedTimes, sortByScheduledAt, replaceHM, floorDay,
      AppointmentService.slotLoop, AppointmentService.checkLoop]

/-- C3 (amended): for a provider id that matches no stored barber,
`get_available_slots` returns the empty sequence without raising, for any
date, duration and clock; an inactive provider, however, is treated
exactly like an active one — the activity flags are never consulted, so
flipping every barber's `is_active` flag leaves the result unchanged. -/
theorem get_available_slots_unknown_provider :
    (∀ (db : DB) (clock : Nat → Nat) (bid date dur : Nat),
        (∀ b ∈ db.barbers, b.id ≠ bid) →
        AppointmentService.get_available_slots db clock bid date dur
          = .ok []) ∧
    (∀ (db : DB) (clock : Nat → Nat) (bid date dur : Nat) (f : Barber → Bool),
        AppointmentService.get_available_slots
          { db with
            barbers := db.barbers.map (fun b => { b with is_active := f b }) }
          clock bid date dur
          = AppointmentService.get_available_slots db clock bid date dur) := by
  constructor
  · intro db clock bid date dur h
    have hf : db.barbers.filter (fun b => b.id == bid) = [] :=
      List.filter_eq_nil_iff.mpr (fun b hb => by simpa using h b hb)
    unfold AppointmentService.get_available_slots BarberService.get_by_id
    rw [hf]
    rfl
  · intro db clock bid date dur f
    unfold AppointmentService.get_available_slots BarberService.get_by_id
    have hbarbers : ({ db with
        barbers := db.barbers.map (fun b => { b with is_active := f b }) }
          : DB).barbers
        = db.barbers.map (fun b => { b with is_active := f b }) := rfl
    rw [hbarbers, filter_id_map_is_active]
    cases hfb : db.barbers.filter (fun b => b.id == bid) with
    | nil => rfl
    | cons x xs =>
      cases xs with
      | nil => rfl
      | cons y t => rfl

/-- C4: boundary case — working hours 09:00–19:00, one active 09:00–09:30
booking (30-minute service), a 30-minute request and every clock sample
before 09:00: the slots are exactly 09:30, 10:00, …, 18:30 (minutes 570,
600, …, 1110), and 09:00 (minute 540) is not offered. -/
theorem slot_enumerator_boundary_case (clock : Nat → Nat)
    (h : ∀ i, clock i < 540) :
    AppointmentService.get_available_slots dbBoundary clock 1 0 30
      = .ok [570, 600, 630, 660, 690, 720, 750, 780, 810, 840, 870, 900,
             930, 960, 990, 1020, 1050, 1080, 1110] ∧
    (540 : Nat) ∉ [570, 600, 630, 660, 690, 720, 750, 780, 810, 840, 870,
             900, 930, 960, 990, 1020, 1050, 1080, 1110] := by
  constructor
  · have hcongr : AppointmentService.get_available_slots dbBoundary clock 1 0 30
        = AppointmentService.get_available_slots dbBoundary (fun _ => 0) 1 0 30 := by
      rw [get_available_slots_of_found dbBoundary clock 1 0 30
        { id := 1, name := "b", work_start := 540, work_end := 1140,
          is_active := true } rfl]
      rw [get_available_slots_of_found dbBoundary (fun _ => 0) 1 0 30
        { id := 1, name := "b", work_start := 540, work_end := 1140,
          is_active := true } rfl]
      have hzero : (0 : Nat) < replaceHM 0 540 := by decide
      exact congrArg Except.ok
        (slotLoop_clock_congr _ _ _ clock (fun _ => 0) 0 0 (replaceHM 0 540)
          (fun i => h i) (fun i => hzero))
    rw [hcongr]
    have h1 : AppointmentService.blockLoop 570 540 = [540] := by
      rw [blockLoop_eq_fuel 1 570 540 (by norm_num)]
      rfl
    have hbt : AppointmentService.blockedTimes dbBoundary
        (AppointmentService.get_barber_appointments dbBoundary 1 0)
          = [540] := by
      show [] ++ AppointmentService.blockLoop 570 540 = [540]
      rw [h1]
      rfl
    rw [get_available_slots_of_found dbBoundary (fun _ => 0) 1 0 30
      { id := 1, name := "b", work_start := 540, work_end := 1140,
        is_active := true } rfl]
    rw [hbt]
    rw [slotLoop_eq_fuel 21 1]
    · decide
    · decide
    · decide
  · decide

/-- C4 witness: the constant clock at minute 0 satisfies the
before-09:00 hypothesis. -/
theorem slot_enumerator_boundary_case_witness :
    AppointmentService.get_available_slots dbBoundary (fun _ => 0) 1 0 30
      = .ok [570, 600, 630, 660, 690, 720, 750, 780, 810, 840, 870, 900,
             930, 960, 990, 1020, 1050, 1080, 1110] :=
  (slot_enumerator_boundary_case (fun _ => 0) (fun i => by norm_num)).1

/-- C6: a booking of the queried day blocks exactly the instants
`start, start+30, start+60, …` strictly before `start + duration`, where
`duration` is the linked service's `duration_minutes` (30 when the service
cannot be resolved, see `aptDuration`) — ceiling behavior for durations
that are not multiples of 30. -/
theorem blocked_set_characterization (db : DB) (bid date t : Nat) :
    t ∈ AppointmentService.blockedTimes db
        (AppointmentService.get_barber_appointments db bid date) ↔
      ∃ a ∈ AppointmentService.get_barber_appointments db bid date,
        ∃ k, t = a.scheduled_at + 30 * k ∧
          t < a.scheduled_at + AppointmentService.aptDuration db a := by
  rw [mem_blockedTimes]
  constructor
  · rintro ⟨a, ha, hmem⟩
    obtain ⟨k, rfl, hk⟩ := (mem_blockLoop _ _ _).mp hmem
    exact ⟨a, ha, k, rfl, hk⟩
  · rintro ⟨a, ha, k, rfl, hk⟩
    exact ⟨a, ha, (mem_blockLoop _ _ _).mpr ⟨k, rfl, hk⟩⟩

/-- Concrete evaluation shared by the C7 and C8 witnesses: for the barber
of `dbTwoSlots` (09:00–10:00, no bookings) and the constant clock at 0 the
slots are 09:00 and 09:30. -/
theorem dbTwoSlots_eval_zero :
    AppointmentService.get_available_slots dbTwoSlots (fun _ => 0) 1 0 30
      = .ok [540, 570] := by
  rw [get_available_slots_of_found dbTwoSlots (fun _ => 0) 1 0 30
    { id := 1, name := "b", work_start := 540, work_end := 600,
      is_active := true } rfl]
  have hbt : AppointmentService.blockedTimes dbTwoSlots
      (AppointmentService.get_barber_appointments dbTwoSlots 1 0) = [] := rfl
  rw [hbt, slotLoop_eq_fuel 3 1]
  · decide
  · decide
  · decide

/-- C7: every returned slot is the working-start instant plus a whole
number of 30-minute steps, fits before the working end
(`slot + duration ≤ end`), and the sequence is strictly increasing. -/
theorem slots_grid_aligned_ordered (db : DB) (clock : Nat → Nat)
    (bid date dur : Nat) (barber : Barber) (slots : List Nat)
    (hb : BarberService.get_by_id db bid = .ok (some barber))
    (hs : AppointmentService.get_available_slots db clock bid date dur
      = .ok slots) :
    (∀ s ∈ slots, (∃ j, s = replaceHM date barber.work_start + 30 * j) ∧
      s + dur ≤ replaceHM date barber.work_end) ∧
    slots.Pairwise (· < ·) := by
  rw [get_available_slots_of_found db clock bid date dur barber hb] at hs
  injection hs with hs
  subst hs
  constructor
  · intro s hsmem
    obtain ⟨⟨j, hj⟩, h2, -, -⟩ := slotLoop_mem _ _ _ _ _ _ _ hsmem
    exact ⟨⟨j, hj⟩, h2⟩
  · exact slotLoop_pairwise _ _ _ _ _ _

/-- C7 witness: instantiated at `dbTwoSlots` with the constant clock 0. -/
theorem slots_grid_aligned_ordered_witness :
    (∀ s ∈ [540, 570], (∃ j, s = replaceHM 0 540 + 30 * j) ∧
      s + 30 ≤ replaceHM 0 600) ∧
    ([540, 570] : List Nat).Pairwise (· < ·) :=
  slots_grid_aligned_ordered dbTwoSlots (fun _ => 0) 1 0 30
    { id := 1, name := "b", work_start := 540, work_end := 600,
      is_active := true } [540, 570] rfl dbTwoSlots_eval_zero

/-- C8 counterexample: "now" is re-sampled for each candidate slot, not
once per call.  With the monotone clock `clockJump` (first sample 0, later
samples 599) the call returns only minute 540, while using the first
sample for every candidate would also return 570 — the two disagree, so
the result depends on samples after the first. -/
theorem now_resampled_per_slot :
    (∀ i j : Nat, i ≤ j → clockJump i ≤ clockJump j) ∧
    AppointmentService.get_available_slots dbTwoSlots clockJump 1 0 30
      ≠ AppointmentService.get_available_slots dbTwoSlots
          (fun _ => clockJump 0) 1 0 30 := by
  constructor
  · intro i j hij
    match i, j with
    | 0, j => exact Nat.zero_le _
    | i + 1, 0 => omega
    | i + 1, j + 1 => exact Nat.le_refl 599
  · have hbt : AppointmentService.blockedTimes dbTwoSlots
        (AppointmentService.get_barber_appointments dbTwoSlots 1 0) = [] := rfl
    have h1 : AppointmentService.get_available_slots dbTwoSlots clockJump
        1 0 30 = .ok [540] := by
      rw [get_available_slots_of_found dbTwoSlots clockJump 1 0 30
        { id := 1, name := "b", work_start := 540, work_end := 600,
          is_active := true } rfl]
      rw [hbt, slotLoop_eq_fuel 3 1]
      · decide
      · decide
      · decide
    have h2 : AppointmentService.get_available_slots dbTwoSlots
        (fun _ => clockJump 0) 1 0 30 = .ok [540, 570] := by
      rw [get_available_slots_of_found dbTwoSlots (fun _ => clockJump 0)
        1 0 30
        { id := 1, name := "b", work_start := 540, work_end := 600,
          is_active := true } rfl]
      rw [hbt, slotLoop_eq_fuel 3 1]
      · decide
      · decide
      · decide
    rw [h1, h2]
    decide

/-- C8 (amended): the clock is sampled per candidate slot, but since the
samples within one call are non-decreasing, every returned slot is still
strictly after the call's first sample; with a first sample of 14:00 no
returned slot is ≤ 14:00. -/
theorem slots_after_first_sample (db : DB) (clock : Nat → Nat)
    (bid date dur : Nat) (slots : List Nat)
    (hmono : ∀ i j : Nat, i ≤ j → clock i ≤ clock j)
    (hs : AppointmentService.get_available_slots db clock bid date dur
      = .ok slots) :
    ∀ s ∈ slots, clock 0 < s := by
  unfold AppointmentService.get_available_slots at hs
  cases hbb : BarberService.get_by_id db bid with
  | error e =>
    rw [hbb] at hs
    exact absurd hs (by simp)
  | ok ob =>
    rw [hbb] at hs
    cases ob with
    | none =>
      dsimp only at hs
      injection hs with hs
      subst hs
      intro s hsmem
      exact absurd hsmem (List.not_mem_nil s)
    | some barber =>
      dsimp only at hs
      injection hs with hs
      subst hs
      intro s hsmem
      obtain ⟨-, -, -, i, -, hlt⟩ := slotLoop_mem _ _ _ _ _ _ _ hsmem
      exact lt_of_le_of_lt (hmono 0 i (Nat.zero_le i)) hlt

/-- C8 witness: the amended theorem applied at `dbTwoSlots` with the
constant clock 0 and the returned slot 540. -/
theorem slots_after_first_sample_witness : (0 : Nat) < 540 := by
  have h := slots_after_first_sample dbTwoSlots (fun _ => 0) 1 0 30
    [540, 570] (fun i j hij => Nat.le_refl 0) dbTwoSlots_eval_zero
  exact h 540 (by simp)

/-- C9 (amended): whenever the resolved barber's working window cannot fit
the requested duration (`work_end < work_start + duration`, covering both
an inverted window with a positive duration and a duration exceeding the
window), `get_available_slots` returns the empty sequence without
raising. -/
theorem slots_empty_window (db : DB) (clock : Nat → Nat)
    (bid date dur : Nat) (b : Barber)
    (hb : BarberService.get_by_id db bid = .ok (some b))
    (hlen : b.work_end < b.work_start + dur) :
    AppointmentService.get_available_slots db clock bid date dur = .ok [] := by
  rw [get_available_slots_of_found db clock bid date dur b hb]
  rw [AppointmentService.slotLoop,
    if_neg (by simp only [replaceHM]; omega)]

/-- C9 witness: the empty-window barber (`work_start = work_end = 540`)
with a 30-minute request yields no slots. -/
theorem slots_empty_window_witness :
    AppointmentService.get_available_slots dbZeroWindow (fun _ => 0) 1 0 30
      = .ok [] :=
  slots_empty_window dbZeroWindow (fun _ => 0) 1 0 30
    { id := 1, name := "b", work_start := 540, work_end := 540,
      is_active := true } rfl (by norm_num)

/-- C9 counterexample: with `work_end = work_start = 540` (an empty working
window, so working-end ≤ working-start) and a duration of 0, the code
returns the boundary instant 540 as a slot instead of the empty
sequence. -/
theorem empty_window_zero_duration_slot :
    BarberService.get_by_id dbZeroWindow 1 = .ok (some
      { id := 1, name := "b", work_start := 540, work_end := 540,
        is_active := true }) ∧
    AppointmentService.get_available_slots dbZeroWindow (fun _ => 0) 1 0 0
      = .ok [540] := by
  refine ⟨rfl, ?_⟩
  rw [get_available_slots_of_found dbZeroWindow (fun _ => 0) 1 0 0
    { id := 1, name := "b", work_start := 540, work_end := 540,
      is_active := true } rfl]
  have hbt : AppointmentService.blockedTimes dbZeroWindow
      (AppointmentService.get_barber_appointments dbZeroWindow 1 0) = [] := rfl
  rw [hbt, slotLoop_eq_fuel 2 1]
  · decide
  · decide
  · decide

/-- C10: only active bookings of the queried barber whose start instant
lies within the queried calendar day (midnight to midnight) are fetched
for the blocked set, and adding a booking that starts before the day's
midnight — for example one from the previous evening spilling past
midnight — leaves `get_available_slots` unchanged. -/
theorem blocked_only_same_day (db : DB) (clock : Nat → Nat)
    (bid date dur : Nat) :
    (∀ a ∈ AppointmentService.get_barber_appointments db bid date,
       a.barber_id = bid ∧ floorDay date ≤ a.scheduled_at ∧
       a.scheduled_at < floorDay date + 1440 ∧
       statusIsActive a.status = true) ∧
    (∀ apt : Appointment, apt.scheduled_at < floorDay date →
       AppointmentService.get_available_slots
         { db with appointments := db.appointments ++ [apt] }
         clock bid date dur
         = AppointmentService.get_available_slots db clock bid date dur) := by
  constructor
  · intro a ha
    unfold AppointmentService.get_barber_appointments at ha
    rw [mem_sortByScheduledAt, List.mem_filter] at ha
    obtain ⟨-, hp⟩ := ha
    simp only [Bool.and_eq_true, decide_eq_true_eq, beq_iff_eq] at hp
    exact ⟨hp.1.1, hp.1.2.1, hp.1.2.2, hp.2⟩
  · intro apt hlt
    have hnotle : ¬(floorDay date ≤ apt.scheduled_at) := by omega
    have happ : AppointmentService.get_barber_appointments
        { db with appointments := db.appointments ++ [apt] } bid date
        = AppointmentService.get_barber_appointments db bid date := by
      unfold AppointmentService.get_barber_appointments
      dsimp only
      rw [List.filter_append]
      have hone : (apt.barber_id == bid &&
          (decide (floorDay date ≤ apt.scheduled_at) &&
           decide (apt.scheduled_at < floorDay date + 1440)) &&
          statusIsActive apt.status) = false := by
        simp [hnotle]
      simp only [List.filter_cons, List.filter_nil, hone, Bool.false_eq_true,
        if_false, List.append_nil]
    unfold AppointmentService.get_available_slots
    have hbid : BarberService.get_by_id
        { db with appointments := db.appointments ++ [apt] } bid
        = BarberService.get_by_id db bid := rfl
    rw [hbid, happ]
    rfl

/-- C10 witness: the 23:30 booking of day 0 with a 60-minute service
(spilling past midnight) does not change day 1's available slots. -/
theorem blocked_only_same_day_witness :
    AppointmentService.get_available_slots
      { dbSpill with appointments := dbSpill.appointments ++ [spillApt] }
      (fun _ => 0) 1 1440 30
      = AppointmentService.get_available_slots dbSpill (fun _ => 0) 1 1440 30 :=
  (blocked_only_same_day dbSpill (fun _ => 0) 1 1440 30).2 spillApt (by decide)
